import Mathlib

/-!
Shallow embedding of the real-time change-propagation broker of
`bill-pro-max` (`src/core/WebSocketManager` and `src/core/MongoDBManager`,
found in `src/src/core/BusinessManager.ts`).

JavaScript `Map` objects are embedded as association lists in insertion
order (`Map.set` on an existing key keeps its position, `Map.delete`
removes it, iteration follows insertion order); JavaScript `Set` objects
are embedded as lists in insertion order with membership-guarded insertion.

The broker state consists of
  * `clients`        — `WebSocketManager.clients : Map<string, WebSocket>`,
                       each socket reduced to its `readyState === OPEN` bit;
  * `subs`           — `WebSocketManager.userSubscriptions : Map<string, Set<string>>`;
  * `streams`        — `MongoDBManager.changeStreams : Map<string, ChangeStream>`,
                       each handle reduced to its key (presence = open watch).
The MongoDB connection flag and the `enableChangeStreams` configuration are
not mutated by any of the modelled client-facing operations, so they live in
a fixed `Config`.  Each operation returns the successor state together with
a list of observable effects: messages actually written to an open socket,
and change-stream open/close events.
-/

namespace BillProMax

abbrev ClientId := String
abbrev OwnerKey := String

/-- Outbound message types, one per `type:` literal appearing in a
`sendMessage` call site of `WebSocketManager`. -/
inductive MsgType where
  | connection_established
  | subscription_confirmed
  | unsubscription_confirmed
  | data_update
  | user_data
  | errorMsg
  deriving DecidableEq, Repr

/-- The wire string of each outbound message type, exactly as it appears in
the source (`type: 'connection_established'`, `type: 'subscription_confirmed'`,
`type: 'unsubscription_confirmed'`, `type: 'data_update'`, `type: 'user_data'`,
`type: 'error'`). -/
def MsgType.wire : MsgType → String
  | .connection_established => "connection_established"
  | .subscription_confirmed => "subscription_confirmed"
  | .unsubscription_confirmed => "unsubscription_confirmed"
  | .data_update => "data_update"
  | .user_data => "user_data"
  | .errorMsg => "error"

/-- An outbound message.  `hasTimestamp` records whether the construction
site includes a `timestamp: new Date()` field (every site in the source
does). -/
structure OutMsg where
  type : MsgType
  userId : Option OwnerKey
  message : Option String
  hasTimestamp : Bool
  deriving DecidableEq, Repr

/-- Welcome message sent on connection (`type: 'connection_established'`). -/
def welcomeMsg : OutMsg := ⟨.connection_established, none, none, true⟩

/-- Subscription confirmation (`type: 'subscription_confirmed', userId, timestamp`). -/
def subConfirmMsg (u : OwnerKey) : OutMsg := ⟨.subscription_confirmed, some u, none, true⟩

/-- Unsubscription confirmation (`type: 'unsubscription_confirmed', userId, timestamp`). -/
def unsubConfirmMsg (u : OwnerKey) : OutMsg := ⟨.unsubscription_confirmed, some u, none, true⟩

/-- Data-update broadcast payload (`type: 'data_update', userId, data, timestamp`). -/
def dataUpdateMsg (u : OwnerKey) : OutMsg := ⟨.data_update, some u, none, true⟩

/-- One-shot data reply (`type: 'user_data', userId, data, timestamp`). -/
def userDataMsg (u : OwnerKey) : OutMsg := ⟨.user_data, some u, none, true⟩

/-- Error message built by `sendError` (`type: 'error', message, timestamp`). -/
def errMsgOf (m : String) : OutMsg := ⟨.errorMsg, none, some m, true⟩

/-- Fixed backing-store configuration: `MongoDBManager.isConnected`,
`config.enableChangeStreams`, and the set of owners for which
`loadUserData` finds a document. -/
structure Config where
  connected : Bool
  enableChangeStreams : Bool
  storeOwners : List OwnerKey
  deriving DecidableEq, Repr

/-- Broker state: the three mutable maps described in the header. -/
structure BrokerState where
  clients : List (ClientId × Bool)
  subs : List (OwnerKey × List ClientId)
  streams : List OwnerKey
  deriving DecidableEq, Repr

/-- Observable effects of one operation: a message delivered over an open
socket, a change stream opened (`collection.watch(...)`), or a change
stream closed (`changeStream.close()`). -/
inductive Effect where
  | deliver (c : ClientId) (m : OutMsg)
  | openWatch (u : OwnerKey)
  | closeWatch (u : OwnerKey)
  deriving DecidableEq, Repr

/-! ### Association-list and set primitives (JS `Map` / `Set` semantics) -/

/-- `Map.get`: first entry with the given key. -/
def lookupKey (k : String) : List (String × β) → Option β
  | [] => none
  | (k', v) :: rest => if k' = k then some v else lookupKey k rest

/-- `Map.set`: replace in place if present, else append. -/
def setKey (k : String) (v : β) : List (String × β) → List (String × β)
  | [] => [(k, v)]
  | (k', v') :: rest => if k' = k then (k, v) :: rest else (k', v') :: setKey k v rest

/-- `Map.delete`: drop the entry with the given key. -/
def eraseKey (k : String) (m : List (String × β)) : List (String × β) :=
  m.filter (fun p => p.1 != k)

/-- `Set.add`: append unless already present. -/
def setAdd (c : String) (s : List String) : List String :=
  if c ∈ s then s else s ++ [c]

/-- `Set.delete`: drop the element. -/
def setErase (c : String) (s : List String) : List String :=
  s.filter (fun x => x != c)

/-! ### The handlers, translated from the source -/

/-- `client && client.readyState === WebSocket.OPEN` for the socket stored
under `c` in `this.clients`. -/
def isOpen (s : BrokerState) (c : ClientId) : Bool :=
  match lookupKey c s.clients with
  | some b => b
  | none => false

/-- `WebSocketManager.sendMessage`: look up the client, and if its socket is
open, write the serialized message; otherwise do nothing. -/
def sendMessage (s : BrokerState) (c : ClientId) (m : OutMsg) : List Effect :=
  if isOpen s c then [.deliver c m] else []

/-- Current subscriber snapshot for an owner (empty when no entry). -/
def subsOf (s : BrokerState) (u : OwnerKey) : List ClientId :=
  (lookupKey u s.subs).getD []

/-- `userSubscriptions` update in `handleUserSubscription`: create the
entry if absent, then `add(clientId)`. -/
def subsAdd (u : OwnerKey) (c : ClientId) (m : List (OwnerKey × List ClientId)) :
    List (OwnerKey × List ClientId) :=
  match lookupKey u m with
  | some set => setKey u (setAdd c set) m
  | none => m ++ [(u, [c])]

/-- `WebSocketManager.handleUserSubscription`: add the client to the
owner's subscription set, then call `mongoManager.watchUserData`.
`watchUserData` throws when not connected (caught: `sendError`), returns
early when change streams are disabled, and otherwise closes any
existing stream for the owner (`stopWatching`) before opening and
registering a new one; finally a `subscription_confirmed` message is
sent. -/
def handleUserSubscription (cfg : Config) (s : BrokerState) (c : ClientId) (u : OwnerKey) :
    BrokerState × List Effect :=
  let s1 : BrokerState := { s with subs := subsAdd u c s.subs }
  if cfg.connected = false then
    (s1, sendMessage s1 c (errMsgOf "Failed to subscribe to user data"))
  else if cfg.enableChangeStreams = false then
    (s1, sendMessage s1 c (subConfirmMsg u))
  else
    let closeFx : List Effect := if u ∈ s1.streams then [.closeWatch u] else []
    let s2 : BrokerState := { s1 with streams := (s1.streams.filter (fun x => x != u)) ++ [u] }
    (s2, closeFx ++ [.openWatch u] ++ sendMessage s2 c (subConfirmMsg u))

/-- `WebSocketManager.handleUserUnsubscription`: remove the client from the
owner's set if an entry exists; when the set becomes empty, stop the watch
and delete the entry; always confirm with `unsubscription_confirmed`. -/
def handleUserUnsubscription (s : BrokerState) (c : ClientId) (u : OwnerKey) :
    BrokerState × List Effect :=
  match lookupKey u s.subs with
  | none => (s, sendMessage s c (unsubConfirmMsg u))
  | some set =>
    let set' := setErase c set
    if set'.isEmpty then
      let closeFx : List Effect := if u ∈ s.streams then [.closeWatch u] else []
      let s' : BrokerState :=
        { s with subs := eraseKey u s.subs, streams := s.streams.filter (fun x => x != u) }
      (s', closeFx ++ sendMessage s' c (unsubConfirmMsg u))
    else
      let s' : BrokerState := { s with subs := setKey u set' s.subs }
      (s', sendMessage s' c (unsubConfirmMsg u))

/-- `WebSocketManager.handleGetUserData`: `loadUserData` throws when not
connected (caught: generic error), returns the document when one exists
(`user_data` reply), else `null` (`'User data not found'`). -/
def handleGetUserData (cfg : Config) (s : BrokerState) (c : ClientId) (u : OwnerKey) :
    BrokerState × List Effect :=
  if cfg.connected = false then
    (s, sendMessage s c (errMsgOf "Failed to get user data"))
  else if u ∈ cfg.storeOwners then
    (s, sendMessage s c (userDataMsg u))
  else
    (s, sendMessage s c (errMsgOf "User data not found"))

/-- The loop body of `handleClientDisconnect`: walk the subscription
entries in iteration order, delete the client from each set; when a set
becomes empty, stop the owner's watch (close the stream if one is
registered) and drop the entry.  Returns the remaining entries, the
remaining streams, and the close effects. -/
def disconnectScan (c : ClientId) :
    List (OwnerKey × List ClientId) → List OwnerKey →
    List (OwnerKey × List ClientId) × List OwnerKey × List Effect
  | [], streams => ([], streams, [])
  | (u, set) :: rest, streams =>
    let set' := setErase c set
    if set'.isEmpty then
      let closeFx : List Effect := if u ∈ streams then [.closeWatch u] else []
      let r := disconnectScan c rest (streams.filter (fun x => x != u))
      (r.1, r.2.1, closeFx ++ r.2.2)
    else
      let r := disconnectScan c rest streams
      ((u, set') :: r.1, r.2.1, r.2.2)

/-- `WebSocketManager.handleClientDisconnect`: scan all subscriptions, then
remove the client from the registry. -/
def handleClientDisconnect (s : BrokerState) (c : ClientId) : BrokerState × List Effect :=
  let r := disconnectScan c s.subs s.streams
  (⟨eraseKey c s.clients, r.1, r.2.1⟩, r.2.2)

/-- The `forEach` body of `broadcastToUser`: for each subscriber id, check
the registry and the socket state, and send when open (`sendMessage`
re-checks the same condition). -/
def broadcastFanout (s : BrokerState) (m : OutMsg) : List ClientId → List Effect
  | [] => []
  | c :: rest =>
    (if isOpen s c then sendMessage s c m else []) ++ broadcastFanout s m rest

/-- `WebSocketManager.broadcastToUser`: fan a message out to the current
subscribers of an owner; no state is mutated. -/
def broadcastToUser (s : BrokerState) (u : OwnerKey) (m : OutMsg) : List Effect :=
  match lookupKey u s.subs with
  | none => []
  | some set => broadcastFanout s m set

/-! ### Operations and traces -/

/-- The client-facing operations of the broker, plus the two asynchronous
events a registered change stream can emit (`'change'`, `'error'`) and the
environment event of a socket dying before its `'close'` event is
processed. -/
inductive Op where
  | connect (c : ClientId)
  | subscribe (c : ClientId) (u : OwnerKey)
  | unsubscribe (c : ClientId) (u : OwnerKey)
  | fetchOnce (c : ClientId) (u : OwnerKey)
  | clientDisconnect (c : ClientId)
  | watchFire (u : OwnerKey)
  | streamErrorEvt (u : OwnerKey)
  | socketDie (c : ClientId)
  deriving DecidableEq, Repr

/-- One step of the broker.  `watchFire u` can only be emitted by a
registered stream, hence the membership guard; `streamErrorEvt` runs the
`changeStream.on('error', ...)` handler, which only logs. -/
def stepOp (cfg : Config) (s : BrokerState) : Op → BrokerState × List Effect
  | .connect c =>
    let s' : BrokerState := { s with clients := setKey c true s.clients }
    (s', sendMessage s' c welcomeMsg)
  | .subscribe c u => handleUserSubscription cfg s c u
  | .unsubscribe c u => handleUserUnsubscription s c u
  | .fetchOnce c u => handleGetUserData cfg s c u
  | .clientDisconnect c => handleClientDisconnect s c
  | .watchFire u =>
    if u ∈ s.streams then (s, broadcastToUser s u (dataUpdateMsg u)) else (s, [])
  | .streamErrorEvt _ => (s, [])
  | .socketDie c =>
    match lookupKey c s.clients with
    | some _ => ({ s with clients := setKey c false s.clients }, [])
    | none => (s, [])

/-- The broker starts with no clients, no subscriptions, no streams. -/
def initState : BrokerState := ⟨[], [], []⟩

/-- Run a trace of operations from a state, accumulating effects. -/
def runFrom (cfg : Config) (s : BrokerState) : List Op → BrokerState × List Effect
  | [] => (s, [])
  | op :: rest =>
    let r1 := stepOp cfg s op
    let r2 := runFrom cfg r1.1 rest
    (r2.1, r1.2 ++ r2.2)

/-- Run a trace from the initial state. -/
def run (cfg : Config) (ops : List Op) : BrokerState × List Effect :=
  runFrom cfg initState ops

/-! ### Derived notions used by the statements -/

/-- The owners whose subscriber set becomes empty when `c` is removed. -/
def emptiedKeys (c : ClientId) (m : List (OwnerKey × List ClientId)) : List OwnerKey :=
  (m.filter (fun p => (setErase c p.2).isEmpty)).map Prod.fst

/-- Subscription-index keys are distinct (a JS `Map` property). -/
def KeysNodup (s : BrokerState) : Prop := (s.subs.map Prod.fst).Nodup

/-- No subscriber set stored in the index is empty. -/
def EntriesNonempty (s : BrokerState) : Prop := ∀ p ∈ s.subs, p.2 ≠ []

/-- Change-stream keys are distinct (a JS `Map` property). -/
def StreamsNodup (s : BrokerState) : Prop := s.streams.Nodup

/-- Every owner with an open change stream has a subscription-index entry. -/
def StreamsSubKeys (s : BrokerState) : Prop :=
  ∀ u ∈ s.streams, u ∈ s.subs.map Prod.fst

/-- The structural facts a pair of JavaScript `Map`s enjoys, plus the two
invariants the broker maintains unconditionally: subscriber sets in the
index are never empty, and a change stream only exists for an owner that
still has an index entry. -/
def GoodState (s : BrokerState) : Prop :=
  KeysNodup s ∧ EntriesNonempty s ∧ StreamsNodup s ∧ StreamsSubKeys s

/-- When the store is connected and change streams are enabled, every
subscribed owner has an open change stream. -/
def WatchMatch (s : BrokerState) : Prop :=
  ∀ u ∈ s.subs.map Prod.fst, u ∈ s.streams

/-- The outbound wire types the implementation actually produces. -/
def actualOutboundTypes : List String :=
  ["connection_established", "subscription_confirmed", "unsubscription_confirmed",
   "data_update", "user_data", "error"]

/-- The outbound wire types the specification document claims. -/
def claimedOutboundTypes : List String :=
  ["connection_established", "subscribed", "unsubscribed", "data_update", "snapshot", "error"]

/-- A message is well-formed when its wire type is one the implementation
produces and it carries a timestamp. -/
def msgOk (m : OutMsg) : Bool :=
  actualOutboundTypes.contains m.type.wire && m.hasTimestamp

/-- Every delivered message is well-formed; watch open/close events are
unconstrained. -/
def effWireOk : Effect → Bool
  | .deliver _ m => msgOk m
  | _ => true

/-- Connected configuration with change streams enabled. -/
def cfgA : Config := ⟨true, true, []⟩

/-- Connected configuration with change streams disabled. -/
def cfgB : Config := ⟨true, false, []⟩

/-- Disconnected configuration. -/
def cfgC : Config := ⟨false, true, []⟩

/-! ### Lemmas about the map and set primitives -/

theorem lookupKey_setKey_self (k : String) (v : β) (m : List (String × β)) :
    lookupKey k (setKey k v m) = some v := by
  induction m with
  | nil => simp [setKey, lookupKey]
  | cons p rest ih =>
    obtain ⟨k', v'⟩ := p
    by_cases h : k' = k
    · simp [setKey, h, lookupKey]
    · simp [setKey, h, lookupKey, ih]

theorem lookupKey_setKey_of_ne (h : k' ≠ k) (v : β) (m : List (String × β)) :
    lookupKey k' (setKey k v m) = lookupKey k' m := by
  have h' : ¬(k = k') := fun hh => h hh.symm
  induction m with
  | nil => simp [setKey, lookupKey, h']
  | cons p rest ih =>
    obtain ⟨k'', v'⟩ := p
    by_cases hk : k'' = k
    · subst hk
      simp [setKey, lookupKey, h']
    · simp [setKey, hk, lookupKey, ih]

theorem setKey_eq_self (h : lookupKey k m = some v) : setKey k v m = m := by
  induction m with
  | nil => simp [lookupKey] at h
  | cons p rest ih =>
    obtain ⟨k', v'⟩ := p
    by_cases hk : k' = k
    · simp [lookupKey, hk] at h
      simp [setKey, hk, h]
    · simp [lookupKey, hk] at h
      simp [setKey, hk, ih h]

theorem mem_of_lookupKey (h : lookupKey k m = some v) : (k, v) ∈ m := by
  induction m with
  | nil => simp [lookupKey] at h
  | cons p rest ih =>
    obtain ⟨k', v'⟩ := p
    by_cases hk : k' = k
    · simp [lookupKey, hk] at h
      simp [hk, h]
    · simp [lookupKey, hk] at h
      exact List.mem_cons_of_mem _ (ih h)

theorem lookupKey_isSome_iff (k : String) (m : List (String × β)) :
    (lookupKey k m).isSome = true ↔ k ∈ m.map Prod.fst := by
  induction m with
  | nil => simp [lookupKey]
  | cons p rest ih =>
    obtain ⟨k', v'⟩ := p
    by_cases hk : k' = k
    · subst hk; simp [lookupKey]
    · have hk2 : ¬(k = k') := fun hh => hk hh.symm
      simp [lookupKey, hk, ih, hk2]

theorem lookupKey_eq_none_iff (k : String) (m : List (String × β)) :
    lookupKey k m = none ↔ k ∉ m.map Prod.fst := by
  rw [← lookupKey_isSome_iff (k := k) (m := m)]
  cases lookupKey k m <;> simp

theorem keys_setKey {β : Type v} {k : String} {m : List (String × β)} (w : β)
    (h : (lookupKey k m).isSome = true) :
    (setKey k w m).map Prod.fst = m.map Prod.fst := by
  induction m with
  | nil => simp [lookupKey] at h
  | cons p rest ih =>
    obtain ⟨k', v'⟩ := p
    by_cases hk : k' = k
    · simp [setKey, hk]
    · simp [lookupKey, hk] at h
      simp [setKey, hk, ih h]

theorem mem_setKey (h : p ∈ setKey k v m) : p = (k, v) ∨ p ∈ m := by
  induction m with
  | nil => simpa [setKey] using h
  | cons q rest ih =>
    obtain ⟨k', v'⟩ := q
    by_cases hk : k' = k
    · simp only [setKey, hk, if_pos, List.mem_cons] at h
      rcases h with h | h
      · exact Or.inl h
      · exact Or.inr (List.mem_cons_of_mem _ h)
    · simp only [setKey, hk, if_false, List.mem_cons, ite_false] at h
      rcases h with h | h
      · exact Or.inr (by simp [h])
      · rcases ih h with h2 | h2
        · exact Or.inl h2
        · exact Or.inr (List.mem_cons_of_mem _ h2)

theorem keys_eraseKey (k : String) (m : List (String × β)) :
    (eraseKey k m).map Prod.fst = (m.map Prod.fst).filter (fun x => x != k) := by
  induction m with
  | nil => simp [eraseKey]
  | cons p rest ih =>
    obtain ⟨k', v'⟩ := p
    by_cases hk : k' = k
    · simp only [eraseKey, List.filter_cons] at ih ⊢
      simp [hk, ih]
    · simp only [eraseKey, List.filter_cons] at ih ⊢
      simp [hk, ih, bne_iff_ne]

theorem lookupKey_eraseKey_self (k : String) (m : List (String × β)) :
    lookupKey k (eraseKey k m) = none := by
  rw [lookupKey_eq_none_iff, keys_eraseKey]
  intro h
  simp [List.mem_filter] at h

theorem mem_eraseKey (h : p ∈ eraseKey k m) : p ∈ m ∧ p.1 ≠ k := by
  simp only [eraseKey, List.mem_filter, bne_iff_ne] at h
  exact h

theorem lookupKey_append_of_none {β : Type v} {k : String} {m : List (String × β)}
    (h : lookupKey k m = none) (l : List (String × β)) :
    lookupKey k (m ++ l) = lookupKey k l := by
  induction m with
  | nil => simp
  | cons p rest ih =>
    obtain ⟨k', v'⟩ := p
    by_cases hk : k' = k
    · simp [lookupKey, hk] at h
    · simp only [lookupKey, if_neg hk] at h
      simp [lookupKey, hk, ih h]

theorem setAdd_of_mem (h : c ∈ s) : setAdd c s = s := by
  simp [setAdd, h]

theorem mem_setAdd_self (c : String) (s : List String) : c ∈ setAdd c s := by
  by_cases h : c ∈ s
  · rw [setAdd_of_mem h]
    exact h
  · simp [setAdd, h]

theorem mem_of_mem_setAdd (h : x ∈ setAdd c s) : x ∈ s ∨ x = c := by
  by_cases hc : c ∈ s
  · rw [setAdd_of_mem hc] at h
    exact Or.inl h
  · simp only [setAdd, if_neg hc, List.mem_append, List.mem_singleton] at h
    exact h

theorem setAdd_ne_nil (c : String) (s : List String) : setAdd c s ≠ [] := by
  intro h
  exact absurd (h ▸ mem_setAdd_self c s) (List.not_mem_nil c)

theorem not_mem_setErase_self (c : String) (s : List String) : c ∉ setErase c s := by
  intro h
  simp [setErase, List.mem_filter] at h

theorem mem_of_mem_setErase (h : x ∈ setErase c s) : x ∈ s ∧ x ≠ c := by
  simp only [setErase, List.mem_filter, bne_iff_ne] at h
  exact h

/-! ### Lemmas about `subsAdd` -/

theorem subsAdd_lookup_some {m : List (OwnerKey × List ClientId)} {cs : List ClientId}
    (h : lookupKey u m = some cs) (c : ClientId) :
    lookupKey u (subsAdd u c m) = some (setAdd c cs) := by
  simp [subsAdd, h, lookupKey_setKey_self]

theorem subsAdd_lookup_none {m : List (OwnerKey × List ClientId)}
    (h : lookupKey u m = none) (c : ClientId) :
    lookupKey u (subsAdd u c m) = some [c] := by
  simp [subsAdd, h, lookupKey_append_of_none h, lookupKey]

theorem subsAdd_eq_of_mem {m : List (OwnerKey × List ClientId)} {cs : List ClientId}
    (h : lookupKey u m = some cs) (hc : c ∈ cs) :
    subsAdd u c m = m := by
  simp only [subsAdd, h]
  rw [setAdd_of_mem hc, setKey_eq_self h]

theorem keys_subsAdd_some {m : List (OwnerKey × List ClientId)} {cs : List ClientId}
    (h : lookupKey u m = some cs) (c : ClientId) :
    (subsAdd u c m).map Prod.fst = m.map Prod.fst := by
  simp only [subsAdd, h]
  exact keys_setKey _ (by simp [h])

theorem keys_subsAdd_none {m : List (OwnerKey × List ClientId)}
    (h : lookupKey u m = none) (c : ClientId) :
    (subsAdd u c m).map Prod.fst = m.map Prod.fst ++ [u] := by
  simp [subsAdd, h]

theorem keys_subset_subsAdd (hx : x ∈ m.map Prod.fst) (u : OwnerKey) (c : ClientId) :
    x ∈ (subsAdd u c m).map Prod.fst := by
  cases h : lookupKey u m with
  | some set => rw [keys_subsAdd_some h]; exact hx
  | none => rw [keys_subsAdd_none h]; exact List.mem_append_left _ hx

theorem mem_keys_subsAdd_self (u : OwnerKey) (c : ClientId)
    (m : List (OwnerKey × List ClientId)) :
    u ∈ (subsAdd u c m).map Prod.fst := by
  rw [← lookupKey_isSome_iff]
  cases hl : lookupKey u m with
  | some cs => rw [subsAdd_lookup_some hl c]; rfl
  | none => rw [subsAdd_lookup_none hl c]; rfl

theorem entries_nonempty_subsAdd (hm : ∀ p ∈ m, p.2 ≠ [])
    (hp : p ∈ subsAdd u c m) : p.2 ≠ [] := by
  cases hl : lookupKey u m with
  | some set =>
    simp only [subsAdd, hl] at hp
    rcases mem_setKey hp with h | h
    · rw [h]; exact setAdd_ne_nil c set
    · exact hm p h
  | none =>
    simp only [subsAdd, hl, List.mem_append, List.mem_singleton] at hp
    rcases hp with h | h
    · exact hm p h
    · rw [h]; simp

/-! ### Lemmas about `broadcastFanout` and `disconnectScan` -/

theorem broadcastFanout_eq (s : BrokerState) (m : OutMsg) (l : List ClientId) :
    broadcastFanout s m l =
      (l.filter (fun c => isOpen s c)).map (fun c => Effect.deliver c m) := by
  induction l with
  | nil => simp [broadcastFanout]
  | cons c rest ih =>
    by_cases h : isOpen s c = true
    · simp [broadcastFanout, sendMessage, h, List.filter_cons, ih]
    · simp [broadcastFanout, sendMessage, h, List.filter_cons, ih]

theorem disconnectScan_subs (c : ClientId) (m : List (OwnerKey × List ClientId))
    (streams : List OwnerKey) :
    (disconnectScan c m streams).1 =
      (m.map (fun p => (p.1, setErase c p.2))).filter (fun p => !p.2.isEmpty) := by
  induction m generalizing streams with
  | nil => simp [disconnectScan]
  | cons p rest ih =>
    obtain ⟨u, set⟩ := p
    by_cases h : (setErase c set).isEmpty = true
    · simp [disconnectScan, h, List.filter_cons, ih]
    · simp [disconnectScan, h, List.filter_cons, ih]

theorem disconnectScan_streams (c : ClientId) (m : List (OwnerKey × List ClientId))
    (streams : List OwnerKey) :
    (disconnectScan c m streams).2.1 =
      streams.filter (fun u => !(emptiedKeys c m).contains u) := by
  induction m generalizing streams with
  | nil => simp [disconnectScan, emptiedKeys]
  | cons p rest ih =>
    obtain ⟨u, cs⟩ := p
    by_cases h : (setErase c cs).isEmpty = true
    · have hemp2 : emptiedKeys c ((u, cs) :: rest) = u :: emptiedKeys c rest := by
        simp [emptiedKeys, List.filter_cons, h]
      simp only [disconnectScan, h, if_true, ih, List.filter_filter, hemp2]
      apply List.filter_congr
      intro x _
      rw [List.contains_cons, Bool.not_or, Bool.and_comm]
      rfl
    · have hemp2 : emptiedKeys c ((u, cs) :: rest) = emptiedKeys c rest := by
        simp [emptiedKeys, List.filter_cons, h]
      simp only [disconnectScan, h, ih, hemp2]
      simp

theorem disconnectScan_count (c : ClientId) (u : OwnerKey)
    (m : List (OwnerKey × List ClientId)) (streams : List OwnerKey) :
    ((disconnectScan c m streams).2.2).count (Effect.closeWatch u) =
      if u ∈ emptiedKeys c m ∧ u ∈ streams then 1 else 0 := by
  induction m generalizing streams with
  | nil => simp [disconnectScan, emptiedKeys]
  | cons p rest ih =>
    obtain ⟨k, cs⟩ := p
    by_cases h : (setErase c cs).isEmpty = true
    · have hemp : emptiedKeys c ((k, cs) :: rest) = k :: emptiedKeys c rest := by
        simp [emptiedKeys, List.filter_cons, h]
      by_cases hu : u = k
      · subst hu
        have hnot : u ∉ streams.filter (fun x => x != u) := by
          intro hmem
          rcases List.mem_filter.mp hmem with ⟨_, hne⟩
          simp at hne
        by_cases hs : u ∈ streams
        · simp [disconnectScan, h, List.count_append, ih, hemp, hs, hnot, List.count_cons]
        · simp [disconnectScan, h, List.count_append, ih, hemp, hs, hnot]
      · have hmemf : (u ∈ streams.filter (fun x => x != k)) ↔ u ∈ streams := by
          constructor
          · intro hmem; exact (List.mem_filter.mp hmem).1
          · intro hmem; exact List.mem_filter.mpr ⟨hmem, by simp [hu]⟩
        have hcount0 :
            (if k ∈ streams then [Effect.closeWatch k] else []).count (Effect.closeWatch u) = 0 := by
          by_cases hks : k ∈ streams
          · rw [if_pos hks, List.count_eq_zero]
            intro hmem
            simp at hmem
            exact hu hmem
          · rw [if_neg hks]; rfl
        simp [disconnectScan, h, List.count_append, ih, hemp, hcount0, hmemf,
          List.mem_cons, hu]
    · have hemp : emptiedKeys c ((k, cs) :: rest) = emptiedKeys c rest := by
        simp [emptiedKeys, List.filter_cons, h]
      simp [disconnectScan, h, ih, hemp]

theorem disconnectScan_close_only (c : ClientId) (m : List (OwnerKey × List ClientId))
    (streams : List OwnerKey) (he : e ∈ (disconnectScan c m streams).2.2) :
    ∃ u, e = Effect.closeWatch u := by
  induction m generalizing streams with
  | nil => simp [disconnectScan] at he
  | cons p rest ih =>
    obtain ⟨u, set⟩ := p
    by_cases h : (setErase c set).isEmpty = true
    · simp only [disconnectScan, h, if_pos, List.mem_append] at he
      rcases he with he | he
      · by_cases hs : u ∈ streams
        · simp [hs] at he
          exact ⟨u, he⟩
        · simp [hs] at he
      · exact ih _ he
    · simp only [disconnectScan, h] at he
      exact ih _ he

/-! ### State-invariant preservation -/

theorem goodState_init : GoodState initState := by
  refine ⟨?_, ?_, ?_, ?_⟩ <;> simp [initState, KeysNodup, EntriesNonempty, StreamsNodup,
    StreamsSubKeys]

theorem goodState_of_fields (h : GoodState s) (heq : s'.subs = s.subs)
    (heq2 : s'.streams = s.streams) : GoodState s' := by
  obtain ⟨h1, h2, h3, h4⟩ := h
  exact ⟨by rw [KeysNodup, heq]; exact h1,
         by rw [EntriesNonempty, heq]; exact h2,
         by rw [StreamsNodup, heq2]; exact h3,
         by rw [StreamsSubKeys, heq2, heq]; exact h4⟩

theorem goodState_subscribe (hg : GoodState s) (cfg : Config) (c : ClientId) (u : OwnerKey) :
    GoodState (handleUserSubscription cfg s c u).1 := by
  obtain ⟨h1, h2, h3, h4⟩ := hg
  have hkeys : ((subsAdd u c s.subs).map Prod.fst).Nodup := by
    cases hl : lookupKey u s.subs with
    | some cs => rw [keys_subsAdd_some hl c]; exact h1
    | none =>
      rw [keys_subsAdd_none hl c]
      rw [List.nodup_append]
      refine ⟨h1, List.nodup_singleton u, ?_⟩
      intro x hx hx2
      rw [List.mem_singleton] at hx2
      subst hx2
      exact absurd hx ((lookupKey_eq_none_iff _ _).mp hl)
  have hent : ∀ p ∈ subsAdd u c s.subs, p.2 ≠ [] :=
    fun p hp => entries_nonempty_subsAdd h2 hp
  have hsubkeys : ∀ x ∈ s.streams, x ∈ (subsAdd u c s.subs).map Prod.fst :=
    fun x hx => keys_subset_subsAdd (h4 x hx) u c
  unfold handleUserSubscription
  by_cases hc : cfg.connected = false
  · rw [if_pos hc]
    exact ⟨hkeys, hent, h3, hsubkeys⟩
  · rw [if_neg hc]
    by_cases he : cfg.enableChangeStreams = false
    · rw [if_pos he]
      exact ⟨hkeys, hent, h3, hsubkeys⟩
    · rw [if_neg he]
      refine ⟨hkeys, hent, ?_, ?_⟩
      · show (List.filter (fun x => x != u) s.streams ++ [u]).Nodup
        rw [List.nodup_append]
        refine ⟨List.Nodup.filter _ h3, List.nodup_singleton u, ?_⟩
        intro x hx hx2
        rw [List.mem_singleton] at hx2
        rw [hx2] at hx
        rcases List.mem_filter.mp hx with ⟨_, hne⟩
        simp at hne
      · intro x hx
        replace hx : x ∈ List.filter (fun x => x != u) s.streams ++ [u] := hx
        rcases List.mem_append.mp hx with hx | hx
        · exact hsubkeys x (List.mem_filter.mp hx).1
        · rw [List.mem_singleton] at hx
          rw [hx]
          exact mem_keys_subsAdd_self u c s.subs

theorem goodState_unsubscribe (hg : GoodState s) (c : ClientId) (u : OwnerKey) :
    GoodState (handleUserUnsubscription s c u).1 := by
  obtain ⟨h1, h2, h3, h4⟩ := hg
  unfold handleUserUnsubscription
  cases hl : lookupKey u s.subs with
  | none => exact ⟨h1, h2, h3, h4⟩
  | some cs =>
    dsimp only
    by_cases hemp : (setErase c cs).isEmpty = true
    · rw [if_pos hemp]
      refine ⟨?_, ?_, ?_, ?_⟩
      · show ((eraseKey u s.subs).map Prod.fst).Nodup
        rw [keys_eraseKey]
        exact List.Nodup.filter _ h1
      · intro p hp
        exact h2 p (mem_eraseKey hp).1
      · exact List.Nodup.filter _ h3
      · intro x hx
        replace hx : x ∈ s.streams.filter (fun x => x != u) := hx
        rcases List.mem_filter.mp hx with ⟨hx1, hne⟩
        show x ∈ (eraseKey u s.subs).map Prod.fst
        rw [keys_eraseKey, List.mem_filter]
        exact ⟨h4 x hx1, hne⟩
    · rw [if_neg hemp]
      have hsome : (lookupKey u s.subs).isSome = true := by rw [hl]; rfl
      refine ⟨?_, ?_, h3, ?_⟩
      · show ((setKey u (setErase c cs) s.subs).map Prod.fst).Nodup
        rw [keys_setKey _ hsome]
        exact h1
      · intro p hp
        replace hp : p ∈ setKey u (setErase c cs) s.subs := hp
        rcases mem_setKey hp with hp | hp
        · rw [hp]
          intro hnil
          apply hemp
          have hval : setErase c cs = [] := hnil
          rw [hval]
          rfl
        · exact h2 p hp
      · intro x hx
        show x ∈ (setKey u (setErase c cs) s.subs).map Prod.fst
        rw [keys_setKey _ hsome]
        exact h4 x hx

theorem goodState_disconnect (hg : GoodState s) (c : ClientId) :
    GoodState (handleClientDisconnect s c).1 := by
  obtain ⟨h1, h2, h3, h4⟩ := hg
  unfold handleClientDisconnect
  rw [GoodState]
  simp only [disconnectScan_subs, disconnectScan_streams]
  refine ⟨?_, ?_, ?_, ?_⟩
  · rw [KeysNodup]
    have hsub : (((s.subs.map (fun p => (p.1, setErase c p.2))).filter
        (fun p => !p.2.isEmpty)).map Prod.fst).Sublist
        ((s.subs.map (fun p => (p.1, setErase c p.2))).map Prod.fst) :=
      List.Sublist.map _ (List.filter_sublist _)
    have hkeys : (s.subs.map (fun p => (p.1, setErase c p.2))).map Prod.fst =
        s.subs.map Prod.fst := by
      rw [List.map_map]
      rfl
    exact List.Nodup.sublist (hkeys ▸ hsub) h1
  · intro p hp
    rcases List.mem_filter.mp hp with ⟨_, hq⟩
    simpa using hq
  · exact List.Nodup.filter _ h3
  · intro x hx
    rcases List.mem_filter.mp hx with ⟨hx1, hne⟩
    have hxk := h4 x hx1
    rcases List.mem_map.mp hxk with ⟨p, hp, hpx⟩
    by_cases hpe : (setErase c p.2).isEmpty = true
    · exfalso
      have : x ∈ emptiedKeys c s.subs := by
        rw [emptiedKeys]
        exact List.mem_map.mpr ⟨p, List.mem_filter.mpr ⟨hp, by simpa using hpe⟩, hpx⟩
      simp [this] at hne
    · apply List.mem_map.mpr
      refine ⟨(p.1, setErase c p.2), ?_, hpx⟩
      apply List.mem_filter.mpr
      refine ⟨List.mem_map.mpr ⟨p, hp, rfl⟩, by simpa using hpe⟩

theorem goodState_step (hg : GoodState s) (cfg : Config) (op : Op) :
    GoodState (stepOp cfg s op).1 := by
  cases op with
  | connect c => exact goodState_of_fields hg rfl rfl
  | subscribe c u => exact goodState_subscribe hg cfg c u
  | unsubscribe c u => exact goodState_unsubscribe hg c u
  | fetchOnce c u =>
    unfold stepOp handleGetUserData
    dsimp only
    by_cases hc : cfg.connected = false
    · rw [if_pos hc]; exact hg
    · rw [if_neg hc]
      by_cases hm : u ∈ cfg.storeOwners
      · rw [if_pos hm]; exact hg
      · rw [if_neg hm]; exact hg
  | clientDisconnect c => exact goodState_disconnect hg c
  | watchFire u =>
    unfold stepOp
    dsimp only
    by_cases hs : u ∈ s.streams
    · rw [if_pos hs]; exact hg
    · rw [if_neg hs]; exact hg
  | streamErrorEvt u => exact hg
  | socketDie c =>
    unfold stepOp
    dsimp only
    cases hcl : lookupKey c s.clients with
    | some b =>
      dsimp only
      exact goodState_of_fields hg rfl rfl
    | none => exact hg

theorem goodState_runFrom (hg : GoodState s) (cfg : Config) (ops : List Op) :
    GoodState (runFrom cfg s ops).1 := by
  induction ops generalizing s with
  | nil => exact hg
  | cons op rest ih => exact ih (goodState_step hg cfg op)

theorem goodState_run (cfg : Config) (ops : List Op) : GoodState (run cfg ops).1 :=
  goodState_runFrom goodState_init cfg ops

theorem keys_nodup_mem_unique {β : Type v} {m : List (String × β)} {k : String} {a b : β}
    (hn : (m.map Prod.fst).Nodup) (ha : (k, a) ∈ m) (hb : (k, b) ∈ m) : a = b := by
  induction m with
  | nil => simp at ha
  | cons p rest ih =>
    rw [List.map_cons, List.nodup_cons] at hn
    rcases List.mem_cons.mp ha with ha1 | ha1 <;> rcases List.mem_cons.mp hb with hb1 | hb1
    · have hab := ha1.trans hb1.symm
      simpa using hab
    · exfalso
      apply hn.1
      rw [← ha1]
      exact List.mem_map.mpr ⟨(k, b), hb1, rfl⟩
    · exfalso
      apply hn.1
      rw [← hb1]
      exact List.mem_map.mpr ⟨(k, a), ha1, rfl⟩
    · exact ih hn.2 ha1 hb1

theorem watchMatch_of_fields (h : WatchMatch s) (heq : s'.subs = s.subs)
    (heq2 : s'.streams = s.streams) : WatchMatch s' := by
  intro x hx
  rw [heq] at hx
  rw [heq2]
  exact h x hx

theorem watchMatch_step {cfg : Config} (hc : cfg.connected = true)
    (he : cfg.enableChangeStreams = true) (hg : GoodState s) (hw : WatchMatch s) (op : Op) :
    WatchMatch (stepOp cfg s op).1 := by
  obtain ⟨h1, h2, h3, h4⟩ := hg
  have hc' : ¬cfg.connected = false := by simp [hc]
  have he' : ¬cfg.enableChangeStreams = false := by simp [he]
  cases op with
  | connect c => exact watchMatch_of_fields hw rfl rfl
  | subscribe c u =>
    show WatchMatch (handleUserSubscription cfg s c u).1
    unfold handleUserSubscription
    rw [if_neg hc', if_neg he']
    intro x hx
    show x ∈ List.filter (fun x => x != u) s.streams ++ [u]
    by_cases hxu : x = u
    · rw [hxu]
      exact List.mem_append_right _ (List.mem_singleton_self u)
    · replace hx : x ∈ (subsAdd u c s.subs).map Prod.fst := hx
      have hxs : x ∈ s.subs.map Prod.fst := by
        cases hl : lookupKey u s.subs with
        | some cs => rw [keys_subsAdd_some hl c] at hx; exact hx
        | none =>
          rw [keys_subsAdd_none hl c] at hx
          rcases List.mem_append.mp hx with h | h
          · exact h
          · rw [List.mem_singleton] at h
            exact absurd h hxu
      exact List.mem_append_left _ (List.mem_filter.mpr ⟨hw x hxs, by simp [hxu]⟩)
  | unsubscribe c u =>
    show WatchMatch (handleUserUnsubscription s c u).1
    unfold handleUserUnsubscription
    cases hl : lookupKey u s.subs with
    | none => exact hw
    | some cs =>
      dsimp only
      by_cases hemp : (setErase c cs).isEmpty = true
      · rw [if_pos hemp]
        intro x hx
        replace hx : x ∈ (eraseKey u s.subs).map Prod.fst := hx
        rw [keys_eraseKey] at hx
        rcases List.mem_filter.mp hx with ⟨hx1, hne⟩
        show x ∈ s.streams.filter (fun x => x != u)
        exact List.mem_filter.mpr ⟨hw x hx1, hne⟩
      · rw [if_neg hemp]
        intro x hx
        replace hx : x ∈ (setKey u (setErase c cs) s.subs).map Prod.fst := hx
        rw [keys_setKey _ (by rw [hl]; rfl)] at hx
        exact hw x hx
  | fetchOnce c u =>
    unfold stepOp handleGetUserData
    dsimp only
    by_cases hcc : cfg.connected = false
    · rw [if_pos hcc]; exact hw
    · rw [if_neg hcc]
      by_cases hm : u ∈ cfg.storeOwners
      · rw [if_pos hm]; exact hw
      · rw [if_neg hm]; exact hw
  | clientDisconnect c =>
    show WatchMatch (handleClientDisconnect s c).1
    unfold handleClientDisconnect
    intro x hx
    dsimp only at hx ⊢
    rw [disconnectScan_subs] at hx
    rw [disconnectScan_streams]
    rcases List.mem_map.mp hx with ⟨p, hpf, hpx⟩
    rcases List.mem_filter.mp hpf with ⟨hpm, hpq⟩
    rcases List.mem_map.mp hpm with ⟨q, hq, hqp⟩
    have hqx : q.1 = x := by rw [← hpx, ← hqp]
    apply List.mem_filter.mpr
    constructor
    · exact hw x (List.mem_map.mpr ⟨q, hq, hqx⟩)
    · have hxe : x ∉ emptiedKeys c s.subs := by
        intro hmem
        rw [emptiedKeys] at hmem
        rcases List.mem_map.mp hmem with ⟨r, hrf, hrx⟩
        rcases List.mem_filter.mp hrf with ⟨hrm, hre⟩
        have hrm2 : (x, r.2) ∈ s.subs := by
          rw [← hrx]
          exact hrm
        have hqm2 : (x, q.2) ∈ s.subs := by
          rw [← hqx]
          exact hq
        have hrq : r.2 = q.2 := keys_nodup_mem_unique h1 hrm2 hqm2
        rw [hrq] at hre
        rw [← hqp] at hpq
        simp only at hpq
        rw [hre] at hpq
        simp at hpq
      simp [hxe]
  | watchFire u =>
    unfold stepOp
    dsimp only
    by_cases hs : u ∈ s.streams
    · rw [if_pos hs]; exact hw
    · rw [if_neg hs]; exact hw
  | streamErrorEvt u => exact hw
  | socketDie c =>
    unfold stepOp
    dsimp only
    cases hcl : lookupKey c s.clients with
    | some b =>
      dsimp only
      exact watchMatch_of_fields hw rfl rfl
    | none => exact hw

theorem watchMatch_runFrom {cfg : Config} (hc : cfg.connected = true)
    (he : cfg.enableChangeStreams = true) (hg : GoodState s) (hw : WatchMatch s)
    (ops : List Op) : WatchMatch (runFrom cfg s ops).1 := by
  induction ops generalizing s with
  | nil => exact hw
  | cons op rest ih => exact ih (goodState_step hg cfg op) (watchMatch_step hc he hg hw op)

theorem watchMatch_run {cfg : Config} (hc : cfg.connected = true)
    (he : cfg.enableChangeStreams = true) (ops : List Op) : WatchMatch (run cfg ops).1 :=
  watchMatch_runFrom hc he goodState_init
    (by intro x hx; simp [initState] at hx) ops

/-! ### Lemmas about emitted effects -/

theorem list_isEmpty_eq_nil {α : Type v} {l : List α} (h : l.isEmpty = true) : l = [] := by
  cases l with
  | nil => rfl
  | cons a t => simp at h

theorem mem_sendMessage_self (ho : isOpen s c = true) (m : OutMsg) :
    Effect.deliver c m ∈ sendMessage s c m := by
  rw [sendMessage, if_pos ho]
  exact List.mem_singleton_self _

theorem sendMessage_eq_of_open (ho : isOpen s c = true) (m : OutMsg) :
    sendMessage s c m = [Effect.deliver c m] := by
  rw [sendMessage, if_pos ho]

theorem mem_sendMessage (he : e ∈ sendMessage s c m) : e = Effect.deliver c m := by
  unfold sendMessage at he
  by_cases h : isOpen s c = true
  · rw [if_pos h] at he
    simpa using he
  · rw [if_neg h] at he
    simp at he

theorem count_sendMessage_close (s : BrokerState) (c : ClientId) (m : OutMsg) (u : OwnerKey) :
    (sendMessage s c m).count (Effect.closeWatch u) = 0 := by
  unfold sendMessage
  by_cases h : isOpen s c = true
  · rw [if_pos h]
    simp [List.count_cons]
  · rw [if_neg h]
    rfl

theorem count_sendMessage_open (s : BrokerState) (c : ClientId) (m : OutMsg) (u : OwnerKey) :
    (sendMessage s c m).count (Effect.openWatch u) = 0 := by
  unfold sendMessage
  by_cases h : isOpen s c = true
  · rw [if_pos h]
    simp [List.count_cons]
  · rw [if_neg h]
    rfl

theorem not_data_update_of_msg {m0 : OutMsg} (hm0 : m0.type ≠ MsgType.data_update)
    (he : e = Effect.deliver c0 m0) :
    ∀ c m, e = Effect.deliver c m → m.type ≠ MsgType.data_update := by
  intro c m hcm
  rw [he] at hcm
  injection hcm with h1 h2
  rw [← h2]
  exact hm0

theorem not_data_update_of_close (u : OwnerKey) :
    ∀ c m, Effect.closeWatch u = Effect.deliver c m → m.type ≠ MsgType.data_update := by
  intro c m hcm
  exact absurd hcm (by simp)

theorem effWireOk_step (cfg : Config) (s : BrokerState) (op : Op) :
    ∀ e ∈ (stepOp cfg s op).2, effWireOk e = true := by
  intro e he
  cases op with
  | connect c =>
    rw [mem_sendMessage he]
    rfl
  | subscribe c u =>
    replace he : e ∈ (handleUserSubscription cfg s c u).2 := he
    unfold handleUserSubscription at he
    by_cases hc : cfg.connected = false
    · rw [if_pos hc] at he
      rw [mem_sendMessage he]
      rfl
    · rw [if_neg hc] at he
      by_cases hen : cfg.enableChangeStreams = false
      · rw [if_pos hen] at he
        rw [mem_sendMessage he]
        rfl
      · rw [if_neg hen] at he
        dsimp only at he
        rcases List.mem_append.mp he with he | he
        · rcases List.mem_append.mp he with he | he
          · by_cases hs : u ∈ s.streams
            · rw [if_pos hs] at he
              rw [List.mem_singleton] at he
              rw [he]
              rfl
            · rw [if_neg hs] at he
              simp at he
          · rw [List.mem_singleton] at he
            rw [he]
            rfl
        · rw [mem_sendMessage he]
          rfl
  | unsubscribe c u =>
    replace he : e ∈ (handleUserUnsubscription s c u).2 := he
    unfold handleUserUnsubscription at he
    cases hl : lookupKey u s.subs with
    | none =>
      rw [hl] at he
      rw [mem_sendMessage he]
      rfl
    | some cs =>
      rw [hl] at he
      dsimp only at he
      by_cases hemp : (setErase c cs).isEmpty = true
      · rw [if_pos hemp] at he
        rcases List.mem_append.mp he with he | he
        · by_cases hs : u ∈ s.streams
          · rw [if_pos hs] at he
            rw [List.mem_singleton] at he
            rw [he]
            rfl
          · rw [if_neg hs] at he
            simp at he
        · rw [mem_sendMessage he]
          rfl
      · rw [if_neg hemp] at he
        rw [mem_sendMessage he]
        rfl
  | fetchOnce c u =>
    replace he : e ∈ (handleGetUserData cfg s c u).2 := he
    unfold handleGetUserData at he
    by_cases hc : cfg.connected = false
    · rw [if_pos hc] at he
      rw [mem_sendMessage he]
      rfl
    · rw [if_neg hc] at he
      by_cases hm : u ∈ cfg.storeOwners
      · rw [if_pos hm] at he
        rw [mem_sendMessage he]
        rfl
      · rw [if_neg hm] at he
        rw [mem_sendMessage he]
        rfl
  | clientDisconnect c =>
    replace he : e ∈ (disconnectScan c s.subs s.streams).2.2 := he
    rcases disconnectScan_close_only c s.subs s.streams he with ⟨u, hu⟩
    rw [hu]
    rfl
  | watchFire u =>
    replace he : e ∈ (if u ∈ s.streams then (s, broadcastToUser s u (dataUpdateMsg u))
      else (s, [])).2 := he
    by_cases hs : u ∈ s.streams
    · rw [if_pos hs] at he
      replace he : e ∈ broadcastToUser s u (dataUpdateMsg u) := he
      unfold broadcastToUser at he
      cases hl : lookupKey u s.subs with
      | none =>
        rw [hl] at he
        simp at he
      | some cs =>
        rw [hl] at he
        dsimp only at he
        rw [broadcastFanout_eq] at he
        rcases List.mem_map.mp he with ⟨c2, _, hc2⟩
        rw [← hc2]
        rfl
    · rw [if_neg hs] at he
      exact absurd he (List.not_mem_nil e)
  | streamErrorEvt u => exact absurd he (List.not_mem_nil e)
  | socketDie c =>
    replace he : e ∈ (match lookupKey c s.clients with
      | some _ => ({ s with clients := setKey c false s.clients }, ([] : List Effect))
      | none => (s, [])).2 := he
    cases hcl : lookupKey c s.clients with
    | some b =>
      rw [hcl] at he
      simp at he
    | none =>
      rw [hcl] at he
      simp at he

theorem effWireOk_runFrom (cfg : Config) (s : BrokerState) (ops : List Op) :
    ∀ e ∈ (runFrom cfg s ops).2, effWireOk e = true := by
  induction ops generalizing s with
  | nil =>
    intro e he
    simp [runFrom] at he
  | cons op rest ih =>
    intro e he
    simp only [runFrom] at he
    rcases List.mem_append.mp he with he | he
    · exact effWireOk_step cfg s op e he
    · exact ih _ e he

theorem no_stream_step (cfg : Config) (hen : cfg.enableChangeStreams = false)
    (s : BrokerState) (hs : s.streams = []) (op : Op) :
    (stepOp cfg s op).1.streams = [] ∧
    ∀ e ∈ (stepOp cfg s op).2, ∀ c m, e = Effect.deliver c m →
      m.type ≠ MsgType.data_update := by
  cases op with
  | connect c =>
    refine ⟨hs, ?_⟩
    intro e he
    replace he : e ∈ sendMessage { s with clients := setKey c true s.clients } c welcomeMsg := he
    exact not_data_update_of_msg (by simp [welcomeMsg]) (mem_sendMessage he)
  | subscribe c u =>
    constructor
    · show (handleUserSubscription cfg s c u).1.streams = []
      unfold handleUserSubscription
      by_cases hc : cfg.connected = false
      · rw [if_pos hc]; exact hs
      · rw [if_neg hc, if_pos hen]; exact hs
    · intro e he
      replace he : e ∈ (handleUserSubscription cfg s c u).2 := he
      unfold handleUserSubscription at he
      by_cases hc : cfg.connected = false
      · rw [if_pos hc] at he
        exact not_data_update_of_msg (by simp [errMsgOf]) (mem_sendMessage he)
      · rw [if_neg hc, if_pos hen] at he
        exact not_data_update_of_msg (by simp [subConfirmMsg]) (mem_sendMessage he)
  | unsubscribe c u =>
    constructor
    · show (handleUserUnsubscription s c u).1.streams = []
      unfold handleUserUnsubscription
      cases hl : lookupKey u s.subs with
      | none => exact hs
      | some cs =>
        dsimp only
        by_cases hemp : (setErase c cs).isEmpty = true
        · rw [if_pos hemp]
          show s.streams.filter (fun x => x != u) = []
          rw [hs]
          rfl
        · rw [if_neg hemp]
          exact hs
    · intro e he
      replace he : e ∈ (handleUserUnsubscription s c u).2 := he
      unfold handleUserUnsubscription at he
      cases hl : lookupKey u s.subs with
      | none =>
        rw [hl] at he
        exact not_data_update_of_msg (by simp [unsubConfirmMsg]) (mem_sendMessage he)
      | some cs =>
        rw [hl] at he
        dsimp only at he
        by_cases hemp : (setErase c cs).isEmpty = true
        · rw [if_pos hemp] at he
          rcases List.mem_append.mp he with he | he
          · have hnot : u ∉ s.streams := by rw [hs]; exact List.not_mem_nil u
            rw [if_neg hnot] at he
            exact absurd he (List.not_mem_nil e)
          · exact not_data_update_of_msg (by simp [unsubConfirmMsg]) (mem_sendMessage he)
        · rw [if_neg hemp] at he
          exact not_data_update_of_msg (by simp [unsubConfirmMsg]) (mem_sendMessage he)
  | fetchOnce c u =>
    constructor
    · show (handleGetUserData cfg s c u).1.streams = []
      unfold handleGetUserData
      by_cases hc : cfg.connected = false
      · rw [if_pos hc]; exact hs
      · rw [if_neg hc]
        by_cases hm : u ∈ cfg.storeOwners
        · rw [if_pos hm]; exact hs
        · rw [if_neg hm]; exact hs
    intro e he
    replace he : e ∈ (handleGetUserData cfg s c u).2 := he
    unfold handleGetUserData at he
    by_cases hc : cfg.connected = false
    · rw [if_pos hc] at he
      exact not_data_update_of_msg (by simp [errMsgOf]) (mem_sendMessage he)
    · rw [if_neg hc] at he
      by_cases hm : u ∈ cfg.storeOwners
      · rw [if_pos hm] at he
        exact not_data_update_of_msg (by simp [userDataMsg]) (mem_sendMessage he)
      · rw [if_neg hm] at he
        exact not_data_update_of_msg (by simp [errMsgOf]) (mem_sendMessage he)
  | clientDisconnect c =>
    constructor
    · show (disconnectScan c s.subs s.streams).2.1 = []
      rw [disconnectScan_streams, hs]
      rfl
    · intro e he
      replace he : e ∈ (disconnectScan c s.subs s.streams).2.2 := he
      rcases disconnectScan_close_only c s.subs s.streams he with ⟨u, hu⟩
      rw [hu]
      exact not_data_update_of_close u
  | watchFire u =>
    have hnot : u ∉ s.streams := by rw [hs]; exact List.not_mem_nil u
    constructor
    · show ((if u ∈ s.streams then (s, broadcastToUser s u (dataUpdateMsg u))
        else (s, [])).1.streams = [])
      rw [if_neg hnot]
      exact hs
    · intro e he
      replace he : e ∈ (if u ∈ s.streams then (s, broadcastToUser s u (dataUpdateMsg u))
        else (s, [])).2 := he
      rw [if_neg hnot] at he
      exact absurd he (List.not_mem_nil e)
  | streamErrorEvt u =>
    refine ⟨hs, ?_⟩
    intro e he
    exact absurd he (List.not_mem_nil e)
  | socketDie c =>
    constructor
    · show ((match lookupKey c s.clients with
        | some _ => ({ s with clients := setKey c false s.clients }, ([] : List Effect))
        | none => (s, [])).1.streams = [])
      cases hcl : lookupKey c s.clients with
      | some b => exact hs
      | none => exact hs
    · intro e he
      replace he : e ∈ (match lookupKey c s.clients with
        | some _ => ({ s with clients := setKey c false s.clients }, ([] : List Effect))
        | none => (s, [])).2 := he
      cases hcl : lookupKey c s.clients with
      | some b =>
        rw [hcl] at he
        exact absurd he (List.not_mem_nil e)
      | none =>
        rw [hcl] at he
        exact absurd he (List.not_mem_nil e)

theorem no_stream_runFrom (cfg : Config) (hen : cfg.enableChangeStreams = false)
    (s : BrokerState) (hs : s.streams = []) (ops : List Op) :
    (runFrom cfg s ops).1.streams = [] ∧
    ∀ e ∈ (runFrom cfg s ops).2, ∀ c m, e = Effect.deliver c m →
      m.type ≠ MsgType.data_update := by
  induction ops generalizing s with
  | nil => exact ⟨hs, by intro e he; simp [runFrom] at he⟩
  | cons op rest ih =>
    obtain ⟨h1, h2⟩ := no_stream_step cfg hen s hs op
    obtain ⟨h3, h4⟩ := ih _ h1
    refine ⟨h3, ?_⟩
    intro e he
    simp only [runFrom] at he
    rcases List.mem_append.mp he with he | he
    · exact h2 e he
    · exact h4 e he

/-! ### Claim theorems -/

/-- Claim C1, counterexample to the claim as stated: with change streams
disabled in the configuration, a completed subscribe leaves the owner with
a non-empty subscriber set and no active watch, so "watch exists iff a
connection is in the subscriber set" fails after a completed broker
operation. -/
theorem watch_missing_when_streams_disabled :
    lookupKey "u1" (run cfgB [.connect "c1", .subscribe "c1" "u1"]).1.subs = some ["c1"] ∧
    (run cfgB [.connect "c1", .subscribe "c1" "u1"]).1.streams = [] := by
  constructor <;> rfl

/-- Claim C1, amended: when the store is connected and change streams are
enabled, after every completed trace of broker operations an active watch
for an owner exists iff that owner's subscriber set is non-empty (the set
may contain connections whose sockets have died but whose disconnect has
not yet been processed). -/
theorem watch_iff_nonempty_subscribers (cfg : Config) (ops : List Op)
    (hc : cfg.connected = true) (he : cfg.enableChangeStreams = true) (u : OwnerKey) :
    u ∈ (run cfg ops).1.streams ↔
      ∃ cs, lookupKey u (run cfg ops).1.subs = some cs ∧ cs ≠ [] := by
  obtain ⟨h1, h2, h3, h4⟩ := goodState_run cfg ops
  have hw := watchMatch_run hc he ops
  constructor
  · intro hs
    have hk := h4 u hs
    rw [← lookupKey_isSome_iff] at hk
    cases hl : lookupKey u (run cfg ops).1.subs with
    | none => rw [hl] at hk; simp at hk
    | some cs => exact ⟨cs, rfl, h2 (u, cs) (mem_of_lookupKey hl)⟩
  · rintro ⟨cs, hl, hne⟩
    apply hw u
    rw [← lookupKey_isSome_iff, hl]
    rfl

/-- Witness for the amended C1 at a concrete configuration and trace. -/
theorem watch_iff_nonempty_subscribers_witness :
    cfgA.connected = true ∧ cfgA.enableChangeStreams = true ∧
      ("u1" ∈ (run cfgA [.connect "c1", .subscribe "c1" "u1"]).1.streams ↔
        ∃ cs, lookupKey "u1" (run cfgA [.connect "c1", .subscribe "c1" "u1"]).1.subs =
          some cs ∧ cs ≠ []) :=
  ⟨rfl, rfl, watch_iff_nonempty_subscribers cfgA [.connect "c1", .subscribe "c1" "u1"]
    rfl rfl "u1"⟩

/-- Claim C2, counterexample to the "creation and destruction are tied to
subscriber-set transitions" part: two clients subscribe to the same owner
and nobody unsubscribes or disconnects, yet a close event is emitted and
two open events are emitted, because every subscribe unconditionally
closes and reopens the owner's stream. -/
theorem watch_destroyed_without_transition :
    ((run cfgA [.connect "c1", .connect "c2", .subscribe "c1" "u1",
        .subscribe "c2" "u1"]).2.count (Effect.closeWatch "u1") = 1) ∧
    ((run cfgA [.connect "c1", .connect "c2", .subscribe "c1" "u1",
        .subscribe "c2" "u1"]).2.count (Effect.openWatch "u1") = 2) := by
  constructor <;> rfl

/-- Claim C2, amended: in every reachable broker state the number of
active change streams registered for any owner is 0 or 1, never more
(`changeStreams` is a map keyed by owner, and `watchUserData` closes any
existing stream before registering a new one); however each repeated
subscribe recreates the watch rather than leaving it alone. -/
theorem at_most_one_watch_per_owner (cfg : Config) (ops : List Op) (u : OwnerKey) :
    ((run cfg ops).1.streams).count u ≤ 1 := by
  obtain ⟨_, _, h3, _⟩ := goodState_run cfg ops
  exact List.nodup_iff_count_le_one.mp h3 u

/-- Claim C3, counterexample to the "the existing watch is left untouched
(not closed or reopened)" part: a client subscribes twice to the same
owner; the subscriber set gains no duplicate, but the second subscribe
closes the existing watch (one close event) and opens a fresh one. -/
theorem resubscribe_closes_existing_watch :
    (run cfgA [.connect "c1", .subscribe "c1" "u1", .subscribe "c1" "u1"]).1.subs =
      [("u1", ["c1"])] ∧
    (run cfgA [.connect "c1", .subscribe "c1" "u1", .subscribe "c1" "u1"]).2.count
      (Effect.closeWatch "u1") = 1 := by
  constructor <;> rfl

/-- Claim C3, amended: re-subscribing an already-subscribed connection
performs no duplicate insertion — the subscription index is left exactly
as it was — but the owner's existing watch is not left untouched: the
subscribe closes it (exactly one close event) and opens a replacement
(exactly one open event). -/
theorem resubscribe_no_duplicate_and_reopens (cfg : Config) (s : BrokerState)
    (c : ClientId) (u : OwnerKey) (cs : List ClientId)
    (h1 : lookupKey u s.subs = some cs) (h2 : c ∈ cs)
    (hc : cfg.connected = true) (he : cfg.enableChangeStreams = true)
    (hs : u ∈ s.streams) :
    (handleUserSubscription cfg s c u).1.subs = s.subs ∧
    (handleUserSubscription cfg s c u).2.count (Effect.closeWatch u) = 1 ∧
    (handleUserSubscription cfg s c u).2.count (Effect.openWatch u) = 1 := by
  have hc' : ¬cfg.connected = false := by simp [hc]
  have he' : ¬cfg.enableChangeStreams = false := by simp [he]
  have hsub : subsAdd u c s.subs = s.subs := subsAdd_eq_of_mem h1 h2
  unfold handleUserSubscription
  rw [if_neg hc', if_neg he']
  dsimp only
  rw [hsub]
  refine ⟨rfl, ?_, ?_⟩
  · rw [if_pos hs]
    rw [List.count_append, List.count_append]
    rw [count_sendMessage_close]
    simp [List.count_cons]
  · rw [if_pos hs]
    rw [List.count_append, List.count_append]
    rw [count_sendMessage_open]
    simp [List.count_cons]

/-- Witness for the amended C3 at a concrete already-subscribed state. -/
theorem resubscribe_no_duplicate_and_reopens_witness :
    (lookupKey "u1" (run cfgA [.connect "c1", .subscribe "c1" "u1"]).1.subs = some ["c1"] ∧
     "c1" ∈ ["c1"] ∧ cfgA.connected = true ∧ cfgA.enableChangeStreams = true ∧
     "u1" ∈ (run cfgA [.connect "c1", .subscribe "c1" "u1"]).1.streams) ∧
    ((handleUserSubscription cfgA (run cfgA [.connect "c1", .subscribe "c1" "u1"]).1
        "c1" "u1").1.subs = (run cfgA [.connect "c1", .subscribe "c1" "u1"]).1.subs ∧
     (handleUserSubscription cfgA (run cfgA [.connect "c1", .subscribe "c1" "u1"]).1
        "c1" "u1").2.count (Effect.closeWatch "u1") = 1 ∧
     (handleUserSubscription cfgA (run cfgA [.connect "c1", .subscribe "c1" "u1"]).1
        "c1" "u1").2.count (Effect.openWatch "u1") = 1) :=
  ⟨⟨rfl, by decide, rfl, rfl, by decide⟩,
    resubscribe_no_duplicate_and_reopens cfgA _ "c1" "u1" ["c1"] rfl (by decide) rfl rfl
      (by decide)⟩

/-- Claim C4, counterexample to the claim as stated: after a mid-stream
error event the owner's watch handle is still registered (the owner does
not transition back to Unwatched) and no close event was emitted — the
`changeStream.on('error', ...)` handler only logs. -/
theorem stream_error_keeps_watch_handle :
    (run cfgA [.connect "c1", .subscribe "c1" "u1", .streamErrorEvt "u1"]).1.streams =
      ["u1"] ∧
    (run cfgA [.connect "c1", .subscribe "c1" "u1", .streamErrorEvt "u1"]).2.count
      (Effect.closeWatch "u1") = 0 := by
  constructor <;> rfl

/-- Claim C4, amended: a mid-stream error changes no broker state and
surfaces nothing to any connection (no effects at all: no message, no
retry, no close) — the stale handle stays registered; recovery still
happens on the next subscribe for that owner, because every subscribe
unconditionally replaces the owner's stream, leaving the owner watching. -/
theorem stream_error_logs_only (cfg : Config) (s : BrokerState) (u : OwnerKey) (c : ClientId)
    (hc : cfg.connected = true) (he : cfg.enableChangeStreams = true) :
    stepOp cfg s (.streamErrorEvt u) = (s, []) ∧
    u ∈ (stepOp cfg s (.subscribe c u)).1.streams := by
  have hc' : ¬cfg.connected = false := by simp [hc]
  have he' : ¬cfg.enableChangeStreams = false := by simp [he]
  refine ⟨rfl, ?_⟩
  show u ∈ (handleUserSubscription cfg s c u).1.streams
  unfold handleUserSubscription
  rw [if_neg hc', if_neg he']
  show u ∈ List.filter (fun x => x != u) s.streams ++ [u]
  exact List.mem_append_right _ (List.mem_singleton_self u)

/-- Witness for the amended C4 at a concrete state. -/
theorem stream_error_logs_only_witness :
    cfgA.connected = true ∧ cfgA.enableChangeStreams = true ∧
    (stepOp cfgA initState (.streamErrorEvt "u1") = (initState, []) ∧
     "u1" ∈ (stepOp cfgA initState (.subscribe "c1" "u1")).1.streams) :=
  ⟨rfl, rfl, stream_error_logs_only cfgA initState "u1" "c1" rfl rfl⟩

/-- Claim C5: in every reachable broker state, every subscriber set stored
in the subscription index is non-empty — equivalently, an owner entry
exists iff its set is non-empty, because operations that empty a set
delete the entry at once and subscribe always inserts when creating. -/
theorem subscriber_entries_never_empty (cfg : Config) (ops : List Op) :
    ((run cfg ops).1.subs.all fun p => !p.2.isEmpty) = true := by
  obtain ⟨_, h2, _, _⟩ := goodState_run cfg ops
  rw [List.all_eq_true]
  intro p hp
  have hne := h2 p hp
  show (!p.2.isEmpty) = true
  cases hpe : p.2 with
  | nil => exact absurd hpe hne
  | cons a t => rfl

/-- Claim C6: processing a disconnect removes the connection from every
owner's subscriber set; every owner for which it was the sole subscriber
and which had an open watch gets exactly one close event, owners that keep
subscribers get none; afterwards the connection is gone from the registry. -/
theorem disconnect_cleanup (cfg : Config) (s : BrokerState) (c : ClientId) :
    (∀ u cs, lookupKey u (stepOp cfg s (.clientDisconnect c)).1.subs = some cs → c ∉ cs) ∧
    (∀ u cs, lookupKey u s.subs = some cs → setErase c cs = [] → u ∈ s.streams →
      (stepOp cfg s (.clientDisconnect c)).2.count (Effect.closeWatch u) = 1) ∧
    (∀ u, (∀ cs, (u, cs) ∈ s.subs → setErase c cs ≠ []) →
      (stepOp cfg s (.clientDisconnect c)).2.count (Effect.closeWatch u) = 0) ∧
    lookupKey c (stepOp cfg s (.clientDisconnect c)).1.clients = none := by
  have hsubs : (stepOp cfg s (.clientDisconnect c)).1.subs =
      (disconnectScan c s.subs s.streams).1 := rfl
  have hfx : (stepOp cfg s (.clientDisconnect c)).2 =
      (disconnectScan c s.subs s.streams).2.2 := rfl
  have hcli : (stepOp cfg s (.clientDisconnect c)).1.clients = eraseKey c s.clients := rfl
  refine ⟨?_, ?_, ?_, ?_⟩
  · intro u cs hl hmem
    rw [hsubs, disconnectScan_subs] at hl
    have hm := mem_of_lookupKey hl
    rcases List.mem_filter.mp hm with ⟨hm1, _⟩
    rcases List.mem_map.mp hm1 with ⟨q, _, hq2⟩
    have hcs : setErase c q.2 = cs := congrArg Prod.snd hq2
    rw [← hcs] at hmem
    exact not_mem_setErase_self c q.2 hmem
  · intro u cs hl hemp hsm
    rw [hfx, disconnectScan_count]
    have hu : u ∈ emptiedKeys c s.subs := by
      rw [emptiedKeys]
      apply List.mem_map.mpr
      refine ⟨(u, cs), List.mem_filter.mpr ⟨mem_of_lookupKey hl, ?_⟩, rfl⟩
      show (setErase c cs).isEmpty = true
      rw [hemp]
      rfl
    rw [if_pos ⟨hu, hsm⟩]
  · intro u hall
    rw [hfx, disconnectScan_count]
    have hu : u ∉ emptiedKeys c s.subs := by
      intro hmem
      rw [emptiedKeys] at hmem
      rcases List.mem_map.mp hmem with ⟨r, hrf, hrx⟩
      rcases List.mem_filter.mp hrf with ⟨hrm, hre⟩
      exact hall r.2 (by rw [← hrx]; exact hrm) (list_isEmpty_eq_nil hre)
    rw [if_neg (fun hh => hu hh.1)]
  · rw [hcli]
    exact lookupKey_eraseKey_self c s.clients

/-- Witness for C6 at a concrete state where the disconnecting client is
the sole subscriber of a watched owner. -/
theorem disconnect_cleanup_witness :
    (stepOp cfgA (run cfgA [.connect "c1", .subscribe "c1" "u1"]).1
      (.clientDisconnect "c1")).2.count (Effect.closeWatch "u1") = 1 ∧
    lookupKey "c1" (stepOp cfgA (run cfgA [.connect "c1", .subscribe "c1" "u1"]).1
      (.clientDisconnect "c1")).1.clients = none :=
  ⟨(disconnect_cleanup cfgA (run cfgA [.connect "c1", .subscribe "c1" "u1"]).1 "c1").2.1
      "u1" ["c1"] rfl rfl (by decide),
   (disconnect_cleanup cfgA (run cfgA [.connect "c1", .subscribe "c1" "u1"]).1 "c1").2.2.2⟩

/-- Claim C7: a change event on a watched owner delivers the payload to
exactly those subscribers whose registered socket is open, in index order;
dead or unregistered subscribers are silently skipped (no error effect
exists, since the effect list consists solely of deliveries to open
subscribers), and the broker state — in particular the subscription
index — is completely unchanged. -/
theorem broadcast_delivers_to_open_subscribers (cfg : Config) (s : BrokerState) (u : OwnerKey)
    (h : u ∈ s.streams) :
    (stepOp cfg s (.watchFire u)).1 = s ∧
    (stepOp cfg s (.watchFire u)).2 =
      ((subsOf s u).filter (fun c => isOpen s c)).map
        (fun c => Effect.deliver c (dataUpdateMsg u)) := by
  have hstep : stepOp cfg s (.watchFire u) = (s, broadcastToUser s u (dataUpdateMsg u)) := by
    show (if u ∈ s.streams then (s, broadcastToUser s u (dataUpdateMsg u)) else (s, [])) = _
    rw [if_pos h]
  rw [hstep]
  refine ⟨rfl, ?_⟩
  show broadcastToUser s u (dataUpdateMsg u) = _
  unfold broadcastToUser subsOf
  cases hl : lookupKey u s.subs with
  | none => rfl
  | some cs =>
    dsimp only
    exact broadcastFanout_eq s (dataUpdateMsg u) cs

/-- Witness for C7 at a state with one open and one dead subscriber. -/
theorem broadcast_delivers_to_open_subscribers_witness :
    ("u1" ∈ (run cfgA [.connect "c1", .connect "c2", .subscribe "c1" "u1",
        .subscribe "c2" "u1", .socketDie "c2"]).1.streams) ∧
    ((stepOp cfgA (run cfgA [.connect "c1", .connect "c2", .subscribe "c1" "u1",
        .subscribe "c2" "u1", .socketDie "c2"]).1 (.watchFire "u1")).1 =
      (run cfgA [.connect "c1", .connect "c2", .subscribe "c1" "u1",
        .subscribe "c2" "u1", .socketDie "c2"]).1 ∧
     (stepOp cfgA (run cfgA [.connect "c1", .connect "c2", .subscribe "c1" "u1",
        .subscribe "c2" "u1", .socketDie "c2"]).1 (.watchFire "u1")).2 =
      ((subsOf (run cfgA [.connect "c1", .connect "c2", .subscribe "c1" "u1",
          .subscribe "c2" "u1", .socketDie "c2"]).1 "u1").filter
        (fun c => isOpen (run cfgA [.connect "c1", .connect "c2", .subscribe "c1" "u1",
          .subscribe "c2" "u1", .socketDie "c2"]).1 c)).map
        (fun c => Effect.deliver c (dataUpdateMsg "u1"))) :=
  ⟨by decide, broadcast_delivers_to_open_subscribers cfgA _ "u1" (by decide)⟩

/-- Claim C8, counterexample to the claim as stated: the confirmation the
broker sends for a successful subscribe has wire type
`subscription_confirmed`, which is not in the claimed outbound type set
(`connection_established`, `subscribed`, `unsubscribed`, `data_update`,
`snapshot`, `error`); in particular no `subscribed` message is sent. -/
theorem subscribe_confirmation_type_not_claimed :
    (Effect.deliver "c1" (subConfirmMsg "u1") ∈
      (run cfgA [.connect "c1", .subscribe "c1" "u1"]).2) ∧
    claimedOutboundTypes.contains (subConfirmMsg "u1").type.wire = false := by
  constructor
  · decide
  · rfl

/-- Claim C8, amended: every message delivered to a client in any run has
a wire type drawn from the set the implementation actually uses
(`connection_established`, `subscription_confirmed`,
`unsubscription_confirmed`, `data_update`, `user_data`, `error`) and
always carries a timestamp; and every successful subscribe by a connection
with an open socket is answered with a `subscription_confirmed` message
for the requested owner. -/
theorem outbound_types_and_timestamps (cfg : Config) (ops : List Op) (s : BrokerState)
    (c : ClientId) (u : OwnerKey) (hc : cfg.connected = true) (ho : isOpen s c = true) :
    (∀ e ∈ (run cfg ops).2, effWireOk e = true) ∧
    Effect.deliver c (subConfirmMsg u) ∈ (stepOp cfg s (.subscribe c u)).2 := by
  refine ⟨effWireOk_runFrom cfg initState ops, ?_⟩
  have hc' : ¬cfg.connected = false := by simp [hc]
  show Effect.deliver c (subConfirmMsg u) ∈ (handleUserSubscription cfg s c u).2
  unfold handleUserSubscription
  rw [if_neg hc']
  by_cases hen : cfg.enableChangeStreams = false
  · rw [if_pos hen]
    exact mem_sendMessage_self ho (subConfirmMsg u)
  · rw [if_neg hen]
    dsimp only
    exact List.mem_append_right _ (mem_sendMessage_self ho (subConfirmMsg u))

/-- Witness for the amended C8 at a concrete run and subscribe. -/
theorem outbound_types_and_timestamps_witness :
    cfgA.connected = true ∧ isOpen (run cfgA [.connect "c1"]).1 "c1" = true ∧
    ((∀ e ∈ (run cfgA [.connect "c1"]).2, effWireOk e = true) ∧
     Effect.deliver "c1" (subConfirmMsg "u1") ∈
       (stepOp cfgA (run cfgA [.connect "c1"]).1 (.subscribe "c1" "u1")).2) :=
  ⟨rfl, rfl, outbound_types_and_timestamps cfgA [.connect "c1"] _ "c1" "u1" rfl rfl⟩

/-- Claim C9: when the store is not connected, `watchUserData` throws, the
subscribe handler catches and sends the requester an error message — but
the insertion into the owner's subscriber set made before the watch-open
attempt is not rolled back, and no stream is registered, so the owner ends
up with the connection subscribed and the watch state unchanged. -/
theorem failed_watch_open_keeps_subscriber (cfg : Config) (s : BrokerState) (c : ClientId)
    (u : OwnerKey) (hc : cfg.connected = false) (ho : isOpen s c = true) :
    (stepOp cfg s (.subscribe c u)).2 =
      [Effect.deliver c (errMsgOf "Failed to subscribe to user data")] ∧
    c ∈ subsOf (stepOp cfg s (.subscribe c u)).1 u ∧
    (stepOp cfg s (.subscribe c u)).1.streams = s.streams := by
  have hstep : stepOp cfg s (.subscribe c u) =
      ({ s with subs := subsAdd u c s.subs },
        sendMessage { s with subs := subsAdd u c s.subs } c
          (errMsgOf "Failed to subscribe to user data")) := by
    show handleUserSubscription cfg s c u = _
    unfold handleUserSubscription
    rw [if_pos hc]
  rw [hstep]
  refine ⟨sendMessage_eq_of_open ho _, ?_, rfl⟩
  · show c ∈ subsOf { s with subs := subsAdd u c s.subs } u
    rw [subsOf]
    cases hl : lookupKey u s.subs with
    | some cs =>
      show c ∈ (lookupKey u (subsAdd u c s.subs)).getD []
      rw [subsAdd_lookup_some hl c]
      exact mem_setAdd_self c cs
    | none =>
      show c ∈ (lookupKey u (subsAdd u c s.subs)).getD []
      rw [subsAdd_lookup_none hl c]
      exact List.mem_singleton_self c

/-- Witness for C9 at a disconnected configuration. -/
theorem failed_watch_open_keeps_subscriber_witness :
    cfgC.connected = false ∧ isOpen (run cfgC [.connect "c1"]).1 "c1" = true ∧
    ((stepOp cfgC (run cfgC [.connect "c1"]).1 (.subscribe "c1" "u1")).2 =
        [Effect.deliver "c1" (errMsgOf "Failed to subscribe to user data")] ∧
     "c1" ∈ subsOf (stepOp cfgC (run cfgC [.connect "c1"]).1 (.subscribe "c1" "u1")).1 "u1" ∧
     (stepOp cfgC (run cfgC [.connect "c1"]).1 (.subscribe "c1" "u1")).1.streams =
       (run cfgC [.connect "c1"]).1.streams) :=
  ⟨rfl, rfl, failed_watch_open_keeps_subscriber cfgC _ "c1" "u1" rfl rfl⟩

/-- Claim C10: with change streams disabled, no run ever registers a watch
and no `data_update` message is ever delivered; yet a subscribe by a
connected client with an open socket still succeeds — the client is added
to the owner's subscriber set and receives its subscription confirmation. -/
theorem no_watch_when_streams_disabled (cfg : Config) (ops : List Op) (s : BrokerState)
    (c : ClientId) (u : OwnerKey) (hen : cfg.enableChangeStreams = false)
    (hc : cfg.connected = true) (ho : isOpen s c = true) :
    (run cfg ops).1.streams = [] ∧
    (∀ e ∈ (run cfg ops).2, ∀ c2 m, e = Effect.deliver c2 m →
      m.type ≠ MsgType.data_update) ∧
    (stepOp cfg s (.subscribe c u)).2 = [Effect.deliver c (subConfirmMsg u)] ∧
    c ∈ subsOf (stepOp cfg s (.subscribe c u)).1 u := by
  obtain ⟨h1, h2⟩ := no_stream_runFrom cfg hen initState rfl ops
  have hc' : ¬cfg.connected = false := by simp [hc]
  have hstep : stepOp cfg s (.subscribe c u) =
      ({ s with subs := subsAdd u c s.subs },
        sendMessage { s with subs := subsAdd u c s.subs } c (subConfirmMsg u)) := by
    show handleUserSubscription cfg s c u = _
    unfold handleUserSubscription
    rw [if_neg hc', if_pos hen]
  refine ⟨h1, h2, ?_, ?_⟩
  · rw [hstep]
    exact sendMessage_eq_of_open ho _
  · rw [hstep]
    show c ∈ subsOf { s with subs := subsAdd u c s.subs } u
    rw [subsOf]
    cases hl : lookupKey u s.subs with
    | some cs =>
      show c ∈ (lookupKey u (subsAdd u c s.subs)).getD []
      rw [subsAdd_lookup_some hl c]
      exact mem_setAdd_self c cs
    | none =>
      show c ∈ (lookupKey u (subsAdd u c s.subs)).getD []
      rw [subsAdd_lookup_none hl c]
      exact List.mem_singleton_self c

/-- Witness for C10 at a connected, streams-disabled configuration. -/
theorem no_watch_when_streams_disabled_witness :
    cfgB.enableChangeStreams = false ∧ cfgB.connected = true ∧
    isOpen (run cfgB [.connect "c1"]).1 "c1" = true ∧
    ((run cfgB [.connect "c1", .subscribe "c1" "u1"]).1.streams = [] ∧
     (∀ e ∈ (run cfgB [.connect "c1", .subscribe "c1" "u1"]).2, ∀ c2 m,
        e = Effect.deliver c2 m → m.type ≠ MsgType.data_update) ∧
     (stepOp cfgB (run cfgB [.connect "c1"]).1 (.subscribe "c1" "u1")).2 =
        [Effect.deliver "c1" (subConfirmMsg "u1")] ∧
     "c1" ∈ subsOf (stepOp cfgB (run cfgB [.connect "c1"]).1 (.subscribe "c1" "u1")).1 "u1") :=
  ⟨rfl, rfl, rfl, no_watch_when_streams_disabled cfgB [.connect "c1", .subscribe "c1" "u1"]
    (run cfgB [.connect "c1"]).1 "c1" "u1" rfl rfl rfl⟩

end BillProMax
